import Mathlib

/-!
Verification development for the raster/vector conversion layer of
`tmlib/workflow/jterator/handles.py` (classes `Image` and `SegmentedObjects`).

A 2-d label plane (`numpy.ndarray` of integers, row-major) is embedded as a
list of rows of integers.  The numpy, mahotas, OpenCV, shapely and
scikit-image operations that the source invokes are embedded as executable
Lean functions on this representation; external library calls whose exact
behaviour a concrete theorem must not depend on are taken as explicit
function parameters instead.
-/

namespace TMaps

/-- A 2-d integer pixel array (list of rows), the embedding of a numpy
label plane.  Background pixels are `0`, objects carry positive labels. -/
abbrev Plane := List (List ℤ)

/-- Pixel lookup `p[i][j]` with numpy's row-major orientation; out-of-range
reads (never exercised by in-range code paths) give `0`. -/
def getPix (p : Plane) (i j : ℕ) : ℤ := (p.getD i []).getD j 0

/-- Insertion of an integer into a sorted list (ascending). -/
def insertSorted (x : ℤ) : List ℤ → List ℤ
  | [] => [x]
  | y :: ys => if x ≤ y then x :: y :: ys else y :: insertSorted x ys

/-- Insertion sort, ascending. -/
def sortInts (l : List ℤ) : List ℤ := l.foldr insertSorted []

/-- Embeds `numpy.unique`: the distinct values of a list, sorted ascending. -/
def npUnique (l : List ℤ) : List ℤ := sortInts l.dedup

/-- All pixel values of a plane, row-major. -/
def planeVals (p : Plane) : List ℤ := p.flatten

/-- Embeds the `SegmentedObjects.labels` property
(`np.unique(self.value[self.value > 0])`): the sorted distinct positive
pixel values of the stored array. -/
def labels (p : Plane) : List ℤ := npUnique ((planeVals p).filter (fun v => 0 < v))

/-- Embeds the in-place border zeroing of `to_polygons`
(`plane[0, :] = 0; plane[-1, :] = 0; plane[:, 0] = 0; plane[:, -1] = 0`). -/
def zeroBorder (p : Plane) : Plane :=
  (List.range p.length).map (fun i =>
    let row := p.getD i []
    if i = 0 ∨ i = p.length - 1 then List.replicate row.length 0
    else (List.range row.length).map (fun j =>
      if j = 0 ∨ j = row.length - 1 then 0 else row.getD j 0))

/-- Row-major list of the `(row, column)` positions holding a given label;
this is the order in which `numpy.where(plane == label)` reports them. -/
def pixelList (p : Plane) (lab : ℤ) : List (ℕ × ℕ) :=
  (List.range p.length).flatMap (fun i =>
    ((List.range (p.getD i []).length).filter
      (fun j => (p.getD i []).getD j 0 = lab)).map (fun j => (i, j)))

/-- The row coordinates returned by `numpy.where(plane == label)`. -/
def npWhereYs (p : Plane) (lab : ℤ) : List ℤ := (pixelList p lab).map (fun q => (q.1 : ℤ))

/-- The column coordinates returned by `numpy.where(plane == label)`. -/
def npWhereXs (p : Plane) (lab : ℤ) : List ℤ := (pixelList p lab).map (fun q => (q.2 : ℤ))

/-- Exact arithmetic mean of a list of integers, as a rational (used in
specification statements only). -/
def meanQ (l : List ℤ) : ℚ := (l.sum : ℚ) / (l.length : ℚ)

/-- Embeds `int(np.mean(v))` / `np.mean(...).astype(int)` on a list of
integers: the mean (exact in float64 at these magnitudes) truncated toward
zero — `Int.tdiv` is exactly this truncating division. -/
def meanInt (l : List ℤ) : ℤ := Int.tdiv l.sum (l.length : ℤ)

/-- A mahotas-style bounding box: minimal and (exclusive) maximal row and
column of a label's pixels. -/
structure BBox where
  min0 : ℕ
  max0 : ℕ
  min1 : ℕ
  max1 : ℕ
deriving DecidableEq

/-- Minimum of a list of naturals (0 on the empty list, never used there). -/
def natMinL : List ℕ → ℕ
  | [] => 0
  | x :: xs => xs.foldl min x

/-- Maximum of a list of naturals. -/
def natMaxL : List ℕ → ℕ
  | [] => 0
  | x :: xs => xs.foldl max x

/-- Embeds `mahotas.labeled.bbox` for one label: `(min0, max0, min1, max1)`
with slice-style exclusive upper bounds. -/
def bboxOf (p : Plane) (lab : ℤ) : BBox :=
  let px := pixelList p lab
  let ys := px.map Prod.fst
  let xs := px.map Prod.snd
  ⟨natMinL ys, natMaxL ys + 1, natMinL xs, natMaxL xs + 1⟩

/-- Modelled from the spec: `jtlib.utils.extract_bbox_image` is part of this
repository but not among the provided source files.  Per the spec it extracts
"the sub-image bounded by that label's bounding box plus one pixel of padding
on every side": rows `[min0 - pad, max0 + pad)` and columns
`[min1 - pad, max1 + pad)` (mahotas boxes carry exclusive upper bounds).
The model covers boxes whose padded window stays inside the plane, which is
the case for every evaluation below. -/
def extractBboxImage (p : Plane) (bbox : BBox) (pad : ℕ) : Plane :=
  (List.range' (bbox.min0 - pad) (bbox.max0 + pad - (bbox.min0 - pad))).map (fun i =>
    (List.range' (bbox.min1 - pad) (bbox.max1 + pad - (bbox.min1 - pad))).map (fun j =>
      getPix p i j))

/-- A squeezed OpenCV contour: a list of `(x, y)` vertices. -/
abbrev Ctr := List (ℤ × ℤ)

/-- The `(child, parent)` columns (`hierarchy[0][i][2]` and
`hierarchy[0][i][3]`) of an OpenCV `RETR_CCOMP` hierarchy, one entry per
contour; `-1` means absent. -/
abbrev Hier := List (ℤ × ℤ)

/-- One step state of the multi-contour loop of `to_polygons`
(source lines 519–537): the current shell (unset until first assigned,
as the Python local) and the accumulated hole list. -/
abbrev LoopState := Option Ctr × List Ctr

/-- Embeds the body of `for i in range(len(contours))` in `to_polygons`:
a contour with a parent re-assigns the shell to that parent, a parentless
contour with a child appends that (single) child to the holes, and a
contour with neither takes the longest contour as shell and breaks. -/
def contourLoopGo (contours : List Ctr) (hier : Hier) : List ℕ → LoopState → LoopState
  | [], st => st
  | i :: rest, (sh, holes) =>
    let h := hier.getD i (0, 0)
    if h.2 ≥ 0 then
      contourLoopGo contours hier rest (some (contours.getD h.2.toNat []), holes)
    else if h.1 ≥ 0 then
      contourLoopGo contours hier rest (sh, holes ++ [contours.getD h.1.toNat []])
    else
      let lengths := contours.map List.length
      let idx := lengths.indexOf (natMaxL lengths)
      (some (contours.getD idx []), holes)

/-- Runs the multi-contour loop over all contour indices. -/
def contourLoopRun (contours : List Ctr) (hier : Hier) : LoopState :=
  contourLoopGo contours hier (List.range contours.length) (none, [])

/-- A polygon as built by `to_polygons`: one exterior ring and a list of
hole rings, vertices in `(x, y)` order. -/
structure PolyG where
  shell : List (ℤ × ℤ)
  holes : List (List (ℤ × ℤ))
deriving DecidableEq

instance : Inhabited PolyG := ⟨⟨[], []⟩⟩

/-- A shapely geometry as far as the repair path observes it: either a
single polygon or a multi-polygon (the possible results of `buffer(0)`). -/
inductive Geom
  | single (p : PolyG)
  | multi (ps : List PolyG)
deriving DecidableEq

/-- Twice the signed shoelace sum of a ring (the ring is closed implicitly). -/
def shoelace2 : List (ℤ × ℤ) → ℤ
  | [] => 0
  | q :: qs =>
    let rec go (first cur : ℤ × ℤ) : List (ℤ × ℤ) → ℤ
      | [] => cur.1 * first.2 - first.1 * cur.2
      | r :: rs => (cur.1 * r.2 - r.1 * cur.2) + go first r rs
    go q q qs

/-- Twice shapely's (unsigned) ring area — keeping the factor 2 stays in
exact integers and preserves every comparison of areas. -/
def ringArea2 (r : List (ℤ × ℤ)) : ℤ := |shoelace2 r|

/-- Twice shapely's polygon `.area`: exterior area minus hole areas. -/
def polyArea2 (p : PolyG) : ℤ := ringArea2 p.shell - (p.holes.map ringArea2).sum

/-- First index of an element in a list of integers (`list.index(...)`). -/
def idxOfZ (x : ℤ) : List ℤ → ℕ
  | [] => 0
  | y :: ys => if y = x then 0 else idxOfZ x ys + 1

/-- Maximum of a list of integers (`np.max`); 0 on the empty list. -/
def maxZL : List ℤ → ℤ
  | [] => 0
  | x :: xs => xs.foldl max x

/-- Embeds `areas.index(np.max(areas))` followed by `poly.geoms[index]`:
the first part of a multi-polygon attaining the largest area (doubling all
areas does not change which part that is). -/
def largestPoly (ps : List PolyG) : PolyG :=
  let areas := ps.map polyArea2
  ps.getD (idxOfZ (maxZL areas) areas) default

/-- `true` exactly on `Except.error`. -/
def isErr {ε α : Type} : Except ε α → Bool
  | .error _ => true
  | .ok _ => false

instance {ε α : Type} [DecidableEq ε] [DecidableEq α] : DecidableEq (Except ε α) :=
  fun a b =>
    match a, b with
    | .error x, .error y =>
      if h : x = y then isTrue (by rw [h]) else
        isFalse (fun hc => h (Except.error.inj hc))
    | .error _, .ok _ => isFalse (fun hc => Except.noConfusion hc)
    | .ok _, .error _ => isFalse (fun hc => Except.noConfusion hc)
    | .ok x, .ok y =>
      if h : x = y then isTrue (by rw [h]) else
        isFalse (fun hc => h (Except.ok.inj hc))

/-- Embeds the validity/repair tail of `to_polygons` (source lines 565–589),
parameterised by the shapely oracles: `iv` embeds `.is_valid` and `b0`
embeds `.buffer(0)`.  An invalid polygon is buffered; if the buffered
geometry is still invalid a `ValueError` is raised for that label; a valid
multi-part buffer result is reduced to its largest-area part. -/
def buildPoly (iv : Geom → Bool) (b0 : PolyG → Geom) (p : PolyG) : Except String PolyG :=
  if iv (Geom.single p) then .ok p
  else
    let g := b0 p
    if iv g = false then .error "ValueError: Polygon of object is invalid."
    else
      match g with
      | .single q => .ok q
      | .multi ps => .ok (largestPoly ps)

/-- The closed square ring `[(x-1,y-1),(x+1,y-1),(x+1,y+1),(x-1,y+1),(x-1,y-1)]`
used by both fallback branches of `to_polygons`. -/
def fallbackSquare (x y : ℤ) : List (ℤ × ℤ) :=
  [(x - 1, y - 1), (x + 1, y - 1), (x + 1, y + 1), (x - 1, y + 1), (x - 1, y - 1)]

/-- Embeds the per-label body of `to_polygons` (source lines 480–589) for one
2-d plane.  `fc` embeds `cv2.findContours(..., RETR_CCOMP, CHAIN_APPROX_SIMPLE)`
on the binary bbox sub-image, `iv`/`b0` embed the shapely oracles.
`origPlane` is the array the bounding boxes were computed from (before the
border zeroing), `mutPlane` the array afterwards (`self.value`, which the
zeroing mutated in place). -/
def polygonForLabel (fc : List (List Bool) → List Ctr × Hier)
    (iv : Geom → Bool) (b0 : PolyG → Geom)
    (yOff xOff : ℤ) (origPlane mutPlane : Plane) (lab : ℤ) :
    Except String PolyG :=
  let bbox := bboxOf origPlane lab
  let objIm := extractBboxImage mutPlane bbox 1
  let mask := objIm.map (fun row => row.map (fun v => v == lab))
  let fcOut := fc mask
  let contours := fcOut.1
  let shellHoles : Except String (Ctr × List Ctr) :=
    if contours.length = 0 then
      -- no contour: synthetic square centred on the mean position of the
      -- label's occurrences in `self.value` (the mutated array)
      let ym := meanInt (npWhereYs mutPlane lab)
      let xm := meanInt (npWhereXs mutPlane lab)
      .ok (fallbackSquare xm ym, [])
    else if contours.length > 1 then
      match contourLoopRun contours fcOut.2 with
      | (none, _) => .error "NameError: local variable shell referenced before assignment"
      | (some sh, holes) => .ok (sh, holes)
    else
      .ok (contours.getD 0 [], [])
  shellHoles.bind (fun sh =>
    -- degenerate shell (squeezed away or fewer than 3 vertices): replace by
    -- a square centred on the bbox sub-image centre
    let shell :=
      if sh.1.length < 3 then
        fallbackSquare ((mask.headD []).length / 2 : ℕ) (mask.length / 2 : ℕ)
      else sh.1
    let addY := yOff + (bbox.min0 : ℤ) - 1
    let addX := xOff + (bbox.min1 : ℤ) - 1
    let tr : (ℤ × ℤ) → (ℤ × ℤ) := fun q => (q.1 + addX, -(q.2 + addY))
    buildPoly iv b0 ⟨shell.map tr, sh.2.map (fun h => h.map tr)⟩)

/-- Embeds `SegmentedObjects.to_polygons` for a 2-d stored array.
`iterplanes` yields the single plane `(t, z) = (0, 0)` as a *view* of
`self.value`, so the border zeroing mutates the stored array itself;
the bounding boxes are taken beforehand, and the label list driving the
loop is re-read from the mutated array.  The first component is the list
of yielded `((t, z, label), polygon)` pairs (a raised exception aborts the
generator), the second the value of `self.value` after the call. -/
def to_polygons2D (fc : List (List Bool) → List Ctr × Hier)
    (iv : Geom → Bool) (b0 : PolyG → Geom)
    (yOff xOff : ℤ) (v : Plane) :
    Except String (List ((ℕ × ℕ × ℤ) × PolyG)) × Plane :=
  ((labels (zeroBorder v)).mapM (fun lab =>
      (polygonForLabel fc iv b0 yOff xOff v (zeroBorder v) lab).map
        (fun p => ((0, 0, lab), p))),
    zeroBorder v)

/-- Minimum of a list of integers (0 on the empty list). -/
def intMinL : List ℤ → ℤ
  | [] => 0
  | x :: xs => xs.foldl min x

/-- Maximum of a list of integers (0 on the empty list). -/
def intMaxL : List ℤ → ℤ
  | [] => 0
  | x :: xs => xs.foldl max x

/-- Embeds scikit-image's `point_in_polygon` (the PNPOLY even–odd crossing
test): `xs`/`ys` are the vertex coordinates, `(x, y)` the query point.  The
original float comparison `x < (xj - xi) * (y - yi) / (yj - yi) + xi` is
exact for the integer coordinates arising here and is rendered as the
equivalent cross-multiplied integer comparison (the divisor `yj - yi` is
nonzero whenever the crossing clause holds, as in the short-circuited C
condition; its sign decides the direction of the inequality). -/
def pnpoly (xs ys : List ℤ) (x y : ℤ) : Bool :=
  ((List.range xs.length).foldl (fun (st : Bool × ℕ) i =>
    let xi := xs.getD i 0
    let yi := ys.getD i 0
    let xj := xs.getD st.2 0
    let yj := ys.getD st.2 0
    let hit := ((yi ≤ y ∧ y < yj) ∨ (yj ≤ y ∧ y < yi))
        ∧ (if 0 < yj - yi then (x - xi) * (yj - yi) < (xj - xi) * (y - yi)
           else (xj - xi) * (y - yi) < (x - xi) * (yj - yi))
    (if hit then !st.1 else st.1, i)) (false, xs.length - 1)).1

/-- Embeds `skimage.draw.polygon(r, c)` *without* the `shape` argument: the
scan window starts at `max(0, min)` on each axis (negative coordinates are
dropped) but its upper end is *not* clamped; returns the `(row, column)`
pixels whose centre passes the crossing test, row-major. -/
def skDrawPolygon (r c : List ℤ) : List (ℕ × ℕ) :=
  let minr := (max 0 (intMinL r)).toNat
  let minc := (max 0 (intMinL c)).toNat
  let nr := (intMaxL r + 1 - (minr : ℤ)).toNat
  let nc := (intMaxL c + 1 - (minc : ℤ)).toNat
  ((List.range nr).map (fun k => minr + k)).flatMap (fun (row : ℕ) =>
    (((List.range nc).map (fun k => minc + k)).filter (fun (col : ℕ) =>
      pnpoly c r (col : ℤ) (row : ℤ))).map (fun col => (row, col)))

/-- The 4-d output array of `from_polygons` as a function of
`(y, x, z, t)` indices. -/
abbrev Store := ℕ → ℕ → ℕ → ℕ → ℤ

/-- A single element assignment into the 4-d array. -/
def storeWrite (st : Store) (y x z t : ℕ) (lab : ℤ) : Store :=
  fun y' x' z' t' => if y' = y ∧ x' = x ∧ z' = z ∧ t' = t then lab else st y' x' z' t'

/-- The dimensions handed to `np.zeros` in `from_polygons`, read as a 4-d
shape `(y, x, z, t)` so that the write `array[y, x, z, t]` is meaningful. -/
structure Dims4 where
  ny : ℕ
  nx : ℕ
  nz : ℕ
  nt : ℕ
deriving DecidableEq

/-- Embeds shapely's `poly.exterior.coords`: the stored ring, closed by
repeating the first vertex if the input ring was not already closed. -/
def closeRing (r : List (ℤ × ℤ)) : List (ℤ × ℤ) :=
  match r with
  | [] => []
  | q :: _ => if r.getLastD q = q then r else r ++ [q]

/-- Embeds the loop of `SegmentedObjects.from_polygons` (source lines
614–622): for each `((t, z, label), poly)` pair, the *exterior* ring
coordinates are split into columns, the offsets are subtracted (the y-axis
negation applied by `to_polygons` is *not* undone), `skimage.draw.polygon`
produces the pixel set, and `array[y, x, z, t] = label` assigns it — numpy
raises an `IndexError` when any index is out of bounds. -/
def from_polygons4 (polys : List ((ℕ × ℕ × ℤ) × PolyG)) (yOff xOff : ℤ)
    (dims : Dims4) : Except String Store :=
  polys.foldlM (fun (st : Store) kp =>
    let t := kp.1.1
    let z := kp.1.2.1
    let lab := kp.1.2.2
    let coords := closeRing kp.2.shell
    let xs := coords.map (fun q => q.1 - xOff)
    let ys := coords.map (fun q => q.2 - yOff)
    let pix := skDrawPolygon ys xs
    if pix.all (fun rc => decide (rc.1 < dims.ny) && decide (rc.2 < dims.nx))
        && decide (z < dims.nz) && decide (t < dims.nt) then
      .ok (pix.foldl (fun s rc => storeWrite s rc.1 rc.2 z t lab) st)
    else .error "IndexError: index out of bounds")
    (fun _ _ _ _ => 0)

/-- Embeds `np.squeeze` of the filled array for singleton z- and t-axes
(the shape used in every evaluation below): the resulting 2-d label image. -/
def squeezeZT (st : Store) (dims : Dims4) : Plane :=
  (List.range dims.ny).map (fun i => (List.range dims.nx).map (fun j => st i j 0 0))

/-- `SegmentedObjects.from_polygons` composed with the final
`self.value = np.squeeze(array)` for dimensions with singleton z/t axes. -/
def from_polygons2D (polys : List ((ℕ × ℕ × ℤ) × PolyG)) (yOff xOff : ℤ)
    (dims : Dims4) : Except String Plane :=
  (from_polygons4 polys yOff xOff dims).map (fun st => squeezeZT st dims)

/-- A 3-d integer array, axes `(y, x, z)`. -/
abbrev Arr3 := List (List (List ℤ))

/-- A 4-d integer array, axes `(y, x, z, t)`. -/
abbrev Arr4 := List (List (List (List ℤ)))

/-- A numpy array of rank 2, 3 or 4 as fed to `Image.iterplanes`. -/
inductive NArr
  | d2 (a : Plane)
  | d3 (a : Arr3)
  | d4 (a : Arr4)

/-- The 2-d slice `a[:, :, z, t]` of a 4-d array. -/
def slice4 (a : Arr4) (z t : ℕ) : Plane :=
  a.map (fun row => row.map (fun cell => (cell.getD z []).getD t 0))

/-- Embeds `Image.iterplanes` (source lines 221–236).  A 2-d value is
expanded by two `np.newaxis` and yields the single plane `(0, 0)`.  A 3-d
value is *not* expanded — the guard reads `array.shape == 3`, comparing a
tuple with an int, which is always `False` — so the loops run over the
wrong axes and the yield `array[:, :, z, t]` indexes a 3-d array with four
indices, raising an `IndexError` (unless one of the two loop ranges is
empty).  A 4-d value yields every `(t, z)` slice. -/
def iterplanes : NArr → Except String (List ((ℕ × ℕ) × Plane))
  | .d2 a => .ok [((0, 0), a)]
  | .d3 a =>
    let tRange := ((a.headD []).headD []).length
    let zRange := (a.headD []).length
    if tRange = 0 ∨ zRange = 0 then .ok [] else
      .error "IndexError: too many indices for array"
  | .d4 a =>
    let tDim := (((a.headD []).headD []).headD []).length
    let zDim := ((a.headD []).headD []).length
    .ok ((List.range tDim).flatMap (fun t =>
      (List.range zDim).map (fun z => ((t, z), slice4 a z t))))

/-- Embeds `SegmentedObjects.to_points` for a 2-d stored array: one point
per label, placed at the *truncated* integer mean of the label's pixel
positions (`int(np.mean(x))`, `int(np.mean(y))`), shifted by the offsets
with the y-axis negated. -/
def to_points2D (yOff xOff : ℤ) (p : Plane) : List ((ℕ × ℕ × ℤ) × (ℤ × ℤ)) :=
  (labels p).map (fun lab =>
    ((0, 0, lab),
      (meanInt (npWhereXs p lab) + xOff,
       -(meanInt (npWhereYs p lab) + yOff))))

/-- One row of a measurement table: the feature values, with `none`
standing for numpy's `NaN`. -/
abbrev Row := List (Option ℚ)

/-- A measurement table for one time point: rows in order, each keyed by
its object label (the pandas index). -/
abbrev Table := List (ℤ × Row)

/-- Stable insertion behind all rows with a smaller-or-equal label. -/
def insRow (x : ℤ × Row) : Table → Table
  | [] => [x]
  | y :: ys => if x.1 < y.1 then x :: y :: ys else y :: insRow x ys

/-- Embeds `val.sort_index()`: stable ascending sort by row label. -/
def sortTable (t : Table) : Table := t.foldl (fun acc x => insRow x acc) []

/-- Worker for `dropDupKeepFirst`, carrying the labels already seen. -/
def dropDupGo (seen : List ℤ) : Table → Table
  | [] => []
  | x :: xs =>
    if seen.contains x.1 then dropDupGo seen xs
    else x :: dropDupGo (x.1 :: seen) xs

/-- Embeds `val[~val.index.duplicated(keep='first')]`: keep the first row
of every label, in input order. -/
def dropDupKeepFirst (t : Table) : Table := dropDupGo [] t

/-- A fresh all-`NaN` row over the given columns. -/
def nanRow (cols : List String) : Row := cols.map (fun _ => none)

/-- Embeds one time point of `SegmentedObjects.add_measurement` (source
lines 687–727) against the label list of the stored array.  The recovery
branch is chosen by comparing the *row count* with the *label count*:
fewer rows → append an all-NaN row for each missing label, then sort by
label; more rows → drop duplicate labels (keep first) if any, otherwise
drop rows whose label is unknown; equal counts → no recovery.  The
resulting index must then equal the label list exactly (`np.any(... != ...)`,
which also fails when the lengths differ), and the column names must be
unique; either violation raises a `ValueError`. -/
def addMeasurement (labs : List ℤ) (cols : List String) (tbl : Table) :
    Except String Table :=
  let val :=
    if tbl.length < labs.length then
      sortTable (labs.foldl (fun acc lab =>
        if (acc.map Prod.fst).contains lab then acc
        else acc ++ [(lab, nanRow cols)]) tbl)
    else if tbl.length > labs.length then
      if ((tbl.map Prod.fst).dedup).length < tbl.length then
        dropDupKeepFirst tbl
      else tbl.filter (fun r => labs.contains r.1)
    else tbl
  if val.map Prod.fst = labs then
    if cols.dedup.length = cols.length then .ok val
    else .error "ValueError: Column names must be unique."
  else .error "ValueError: Labels of objects do not match!"

/-- Models `cv2.findContours(..., cv2.RETR_CCOMP, cv2.CHAIN_APPROX_SIMPLE)`
for binary masks whose foreground is a single filled axis-aligned rectangle
(the only masks it is applied to below): one outer contour with the four
corner vertices in OpenCV's `(x, y)` order starting at the top-left corner,
and a trivial hierarchy entry (no child, no parent).  An empty mask yields
no contours. -/
def fcRect (mask : List (List Bool)) : List Ctr × Hier :=
  let px := (List.range mask.length).flatMap (fun i =>
    ((List.range (mask.getD i []).length).filter
      (fun j => (mask.getD i []).getD j false)).map (fun j => (i, j)))
  if px.length = 0 then ([], [])
  else
    let r0 : ℤ := natMinL (px.map Prod.fst)
    let r1 : ℤ := natMaxL (px.map Prod.fst)
    let c0 : ℤ := natMinL (px.map Prod.snd)
    let c1 : ℤ := natMaxL (px.map Prod.snd)
    ([[(c0, r0), (c0, r1), (c1, r1), (c1, r0)]], [(-1, -1)])

/-- Models `shapely .is_valid` at the geometries arising in the concrete
evaluations below, all of which are plainly valid axis-aligned rectangles. -/
def ivAll : Geom → Bool := fun _ => true

/-- Stands in for `.buffer(0)`; never reached in the evaluations below
because the polygons there are valid. -/
def b0Id : PolyG → Geom := Geom.single

/-- 5×5 plane whose single label 1 fills the interior 3×3 block — an
axis-aligned rectangle not touching the border. -/
def planeC2 : Plane :=
  [[0,0,0,0,0],[0,1,1,1,0],[0,1,1,1,0],[0,1,1,1,0],[0,0,0,0,0]]

/-- The polygon `to_polygons` produces for `planeC2` at offsets `(0, 0)`. -/
def polyC2 : PolyG := ⟨[(1,-1),(1,-3),(3,-3),(3,-1)], []⟩

/-- All-zero 5×5 plane. -/
def zeros5 : Plane := List.replicate 5 (List.replicate 5 0)

/-- 3×3 plane whose single label 1 occupies only the corner border pixel. -/
def planeC1 : Plane := [[1,0,0],[0,0,0],[0,0,0]]

/-- 3×3 plane with a nonzero border ring. -/
def planeC3 : Plane := [[1,1,1],[1,0,1],[1,1,1]]

/-- An annulus polygon in global coordinates: square exterior with a
square hole strictly inside it. -/
def annulus : PolyG :=
  ⟨[(0,0),(4,0),(4,4),(0,4),(0,0)], [[(1,1),(3,1),(3,3),(1,3),(1,1)]]⟩

/-- The raster `from_polygons` produces for `annulus` on a 5×5 target. -/
def filled5 : Plane :=
  [[7,7,7,7,0],[7,7,7,7,0],[7,7,7,7,0],[7,7,7,7,0],[0,0,0,0,0]]

/-- A square polygon reaching beyond a 5×5 target (coordinates up to 6). -/
def bigSq : PolyG := ⟨[(0,0),(6,0),(6,6),(0,6),(0,0)], []⟩

/-- A square polygon reaching into negative x-coordinates. -/
def negSq : PolyG := ⟨[(-2,0),(2,0),(2,2),(-2,2),(-2,0)], []⟩

/-- The raster `from_polygons` produces for `negSq` on a 5×5 target:
the negative columns are dropped by the zero-clamped scan window. -/
def negFill5 : Plane :=
  [[1,1,0,0,0],[1,1,0,0,0],[0,0,0,0,0],[0,0,0,0,0],[0,0,0,0,0]]

/-- 2×2 plane with label set `{1, 2, 3}`. -/
def planeC4 : Plane := [[1,2],[3,0]]

/-- Measurement rows used in the alignment evaluations. -/
def rowA : Row := [some 1, some 2]

/-- Second row carried by the duplicated label 1. -/
def rowB : Row := [some 5, some 6]

/-- Row carried by label 2. -/
def rowC : Row := [some 3, some 4]

/-- Row carried by label 3. -/
def rowD : Row := [some 7, some 8]

/-- Two distinct, well-formed column names. -/
def colsC4 : List String := ["a", "b"]

/-- A 2×2×2 array, axes `(y, x, z)`. -/
def cube222 : Arr3 := [[[1,2],[3,4]],[[5,6],[7,8]]]

/-- 2×2 plane where label 1 occupies the two top pixels, so its exact mean
x-position is 1/2, not an integer. -/
def planeC9 : Plane := [[1,1],[0,0]]

/-- A self-intersecting bowtie ring (an invalid polygon). -/
def poly6 : PolyG := ⟨[(0,0),(2,2),(2,0),(0,2)], []⟩

/-- Small triangle, area 1: the part to be discarded. -/
def poly6a : PolyG := ⟨[(0,0),(2,0),(1,1),(0,0)], []⟩

/-- Square of area 4: the largest part, to be kept. -/
def poly6b : PolyG := ⟨[(5,5),(7,5),(7,7),(5,7),(5,5)], []⟩

/-- Validity oracle declaring exactly `poly6` invalid. -/
def iv6 : Geom → Bool := fun g =>
  match g with
  | .single q => if q = poly6 then false else true
  | .multi _ => true

/-- Buffer oracle returning a two-part multi-polygon for every input. -/
def b06 : PolyG → Geom := fun _ => Geom.multi [poly6a, poly6b]


/-! ## Helper lemmas -/

theorem insertSorted_perm (x : ℤ) (l : List ℤ) :
    List.Perm (insertSorted x l) (x :: l) := by
  induction l with
  | nil => simp [insertSorted]
  | cons y ys ih =>
    unfold insertSorted
    by_cases h : x ≤ y
    · simp [h]
    · simp only [h, if_false]
      exact (ih.cons y).trans (List.Perm.swap x y ys)

theorem sortInts_perm (l : List ℤ) : List.Perm (sortInts l) l := by
  induction l with
  | nil => exact List.Perm.refl _
  | cons a l ih =>
    exact (insertSorted_perm a (sortInts l)).trans (ih.cons a)

theorem labels_nodup (p : Plane) : (labels p).Nodup := by
  unfold labels npUnique
  exact ((sortInts_perm _).nodup_iff).2 (List.nodup_dedup _)

theorem filter_map_key_nil {β : Type} (f : ℤ → β) (key : β → ℤ)
    (hk : ∀ x, key (f x) = x) (lab : ℤ) :
    ∀ l : List ℤ, lab ∉ l → (l.map f).filter (fun e => key e == lab) = [] := by
  intro l
  induction l with
  | nil => intro _; rfl
  | cons a as ih =>
    intro hmem
    have ha : a ≠ lab := fun h => hmem (h ▸ List.mem_cons_self a as)
    have has : lab ∉ as := fun h => hmem (List.mem_cons_of_mem a h)
    have hbeq : (key (f a) == lab) = false := by
      rw [hk a]; exact beq_eq_false_iff_ne.mpr ha
    simp [List.filter_cons, hbeq, ih has]

theorem filter_map_key_len {β : Type} (f : ℤ → β) (key : β → ℤ)
    (hk : ∀ x, key (f x) = x) (lab : ℤ) :
    ∀ l : List ℤ, l.Nodup → lab ∈ l →
      ((l.map f).filter (fun e => key e == lab)).length = 1 := by
  intro l
  induction l with
  | nil => intro _ h; cases h
  | cons a as ih =>
    intro hnd hmem
    rcases List.mem_cons.1 hmem with h | h
    · have hout : lab ∉ as := by rw [h]; exact (List.nodup_cons.1 hnd).1
      have hbeq : (key (f a) == lab) = true := by
        rw [hk a, h]; exact beq_self_eq_true a
      simp [List.filter_cons, hbeq, filter_map_key_nil f key hk lab as hout]
    · have ha : a ≠ lab := by
        intro hal
        exact (List.nodup_cons.1 hnd).1 (by rw [hal]; exact h)
      have hbeq : (key (f a) == lab) = false := by
        rw [hk a]; exact beq_eq_false_iff_ne.mpr ha
      simp only [List.map_cons, List.filter_cons, hbeq]
      exact ih (List.nodup_cons.1 hnd).2 h

theorem contourLoopGo_holes (contours : List Ctr) (hier : Hier) (e holeIdx : ℕ)
    (hhe : hier.getD e (0, 0) = ((holeIdx : ℤ), -1))
    (hothers : ∀ i, i < contours.length → i ≠ e →
      hier.getD i (0, 0) = (-1, (e : ℤ))) :
    ∀ idxs : List ℕ, (∀ i ∈ idxs, i < contours.length) → idxs.Nodup →
      ∀ sh holes, (contourLoopGo contours hier idxs (sh, holes)).2 =
        holes ++ (if e ∈ idxs then [contours.getD holeIdx []] else []) := by
  intro idxs
  induction idxs with
  | nil =>
    intro _ _ sh holes
    simp [contourLoopGo]
  | cons i rest ih =>
    intro hbnd hnd sh holes
    have hrestbnd : ∀ j ∈ rest, j < contours.length :=
      fun j hj => hbnd j (List.mem_cons_of_mem i hj)
    have hrestnd : rest.Nodup := (List.nodup_cons.1 hnd).2
    by_cases hie : i = e
    · subst hie
      have hrest : i ∉ rest := (List.nodup_cons.1 hnd).1
      have hstep : contourLoopGo contours hier (i :: rest) (sh, holes) =
          contourLoopGo contours hier rest
            (sh, holes ++ [contours.getD holeIdx []]) := by
        simp only [contourLoopGo, hhe]
        norm_num [Int.toNat_natCast]
      rw [hstep, ih hrestbnd hrestnd sh (holes ++ [contours.getD holeIdx []])]
      rw [if_neg hrest, if_pos (List.mem_cons_self i rest)]
      simp
    · have hstep : contourLoopGo contours hier (i :: rest) (sh, holes) =
          contourLoopGo contours hier rest
            (some (contours.getD e []), holes) := by
        simp only [contourLoopGo,
          hothers i (hbnd i (List.mem_cons_self i rest)) hie]
        norm_num [Int.toNat_natCast]
      rw [hstep, ih hrestbnd hrestnd (some (contours.getD e [])) holes]
      by_cases hm : e ∈ rest
      · rw [if_pos hm, if_pos (List.mem_cons_of_mem i hm)]
      · rw [if_neg hm, if_neg (fun hc => by
          rcases List.mem_cons.1 hc with h1 | h1
          · exact hie h1.symm
          · exact hm h1)]

/-! ## Claim theorems -/

/-- C1.  The claimed count-preservation invariant fails on the code: for the
3×3 plane whose single label 1 occupies only a border pixel, the border
zeroing of `to_polygons` acts on a *view* of `self.value`, so the label
list that drives the per-label loop (re-read from the mutated array) is
already empty and the call yields **zero** polygons for a plane holding
**one** distinct positive label — the synthetic fallback square is never
reached, whatever the contour finder and shapely oracles do. -/
theorem count_preservation_bug (fc : List (List Bool) → List Ctr × Hier)
    (iv : Geom → Bool) (b0 : PolyG → Geom) (yOff xOff : ℤ) :
    labels planeC1 = [1]
    ∧ (to_polygons2D fc iv b0 yOff xOff planeC1).1 = .ok []
    ∧ (labels planeC1).length ≠ ([] : List ((ℕ × ℕ × ℤ) × PolyG)).length := by
  refine ⟨by decide, rfl, by decide⟩

/-- C2.  The raster→vector→raster round trip is not the identity even for an
interior axis-aligned rectangle: `to_polygons` maps the 3×3 block of
`planeC2` to the polygon with negated y-coordinates, and `from_polygons`
only subtracts the offset without undoing the negation, so the scan window
of `skimage.draw.polygon` (clamped below at 0, upper end `-1`) is empty and
the returned plane is all zeros, not the original. -/
theorem roundtrip_not_identity :
    (to_polygons2D fcRect ivAll b0Id 0 0 planeC2).1 = .ok [((0, 0, 1), polyC2)]
    ∧ from_polygons2D [((0, 0, 1), polyC2)] 0 0 ⟨5, 5, 1, 1⟩ = .ok zeros5
    ∧ zeros5 ≠ planeC2 := by
  refine ⟨by decide, by decide, by decide⟩

/-- C3.  The input plane is *not* byte-identical after `to_polygons`: the
plane handed out by `iterplanes` is a numpy view of `self.value`, so the
border zeroing mutates the caller's array in place; for a 3×3 plane with a
nonzero border ring the stored array afterwards is the all-zero plane. -/
theorem plane_mutated_in_place (fc : List (List Bool) → List Ctr × Hier)
    (iv : Geom → Bool) (b0 : PolyG → Geom) (yOff xOff : ℤ) :
    (to_polygons2D fc iv b0 yOff xOff planeC3).2 = zeroBorder planeC3
    ∧ zeroBorder planeC3 ≠ planeC3 := by
  exact ⟨rfl, by decide⟩

/-- C4 (counterexample).  With plane labels `[1, 2, 3]` and supplied rows
indexed `[1, 1, 2]`, `add_measurement` does **not** succeed: both counts are
3, so neither recovery branch runs and the final index comparison raises the
label-mismatch `ValueError`. -/
theorem measurement_alignment_cex :
    addMeasurement (labels planeC4) colsC4 [(1, rowA), (1, rowB), (2, rowC)]
      = .error "ValueError: Labels of objects do not match!" := by
  decide

/-- C4 (amended).  The recovery branches are selected by comparing the row
count with the label count: with rows `[1, 1, 2]` (3 rows, 3 labels) the
call fails with the label-mismatch error; duplicate removal keeping the
first occurrence applies only when there are *more* rows than labels
(rows `[1, 1, 2, 3]` reconcile to `[1, 2, 3]` with label 1's first row),
and NaN-filling of missing labels applies only when there are *fewer*
(rows `[1, 2]` reconcile to `[1, 2, 3]` with an all-NaN row for 3). -/
theorem measurement_alignment_amended :
    addMeasurement (labels planeC4) colsC4 [(1, rowA), (1, rowB), (2, rowC)]
      = .error "ValueError: Labels of objects do not match!"
    ∧ addMeasurement (labels planeC4) colsC4 [(1, rowA), (1, rowB), (2, rowC), (3, rowD)]
      = .ok [(1, rowA), (2, rowC), (3, rowD)]
    ∧ addMeasurement (labels planeC4) colsC4 [(1, rowA), (2, rowC)]
      = .ok [(1, rowA), (2, rowC), (3, nanRow colsC4)] := by
  refine ⟨by decide, by decide, by decide⟩

/-- C5 (counterexample).  Rasterizing a single annulus polygon does *not*
leave the enclosed background at 0: `from_polygons` reads only
`poly.exterior.coords`, so the pixel `(2, 2)` lying strictly inside the
hole ring receives the label 7. -/
theorem holes_not_excluded_cex :
    from_polygons2D [((0, 0, 7), annulus)] 0 0 ⟨5, 5, 1, 1⟩ = .ok filled5
    ∧ getPix filled5 2 2 ≠ 0 := by
  refine ⟨by decide, by decide⟩

/-- C5 (amended).  `from_polygons` fills the full interior of the exterior
ring and ignores hole rings entirely: its result does not depend on the
holes of the supplied polygon, and the annulus evaluation writes its label
into the pixel enclosed by the hole. -/
theorem holes_ignored_by_rasterizer :
    (∀ (k : ℕ × ℕ × ℤ) (sh : List (ℤ × ℤ)) (hs hs' : List (List (ℤ × ℤ)))
      (yo xo : ℤ) (d : Dims4),
      from_polygons2D [(k, ⟨sh, hs⟩)] yo xo d = from_polygons2D [(k, ⟨sh, hs'⟩)] yo xo d)
    ∧ from_polygons2D [((0, 0, 7), annulus)] 0 0 ⟨5, 5, 1, 1⟩ = .ok filled5
    ∧ getPix filled5 2 2 = 7 := by
  refine ⟨fun k sh hs hs' yo xo d => rfl, by decide, by decide⟩

/-- C6.  The repair policy of `to_polygons`: the per-label build fails if
and only if the constructed polygon is invalid and the zero-distance
buffered geometry is still invalid; and when the polygon is invalid but the
buffer result is a valid multi-polygon, exactly the first largest-area part
is emitted.  `buildPoly` is the validity/repair tail through which every
polygon of `to_polygons2D` passes. -/
theorem geometry_repair_policy (iv : Geom → Bool) (b0 : PolyG → Geom) (p : PolyG) :
    (isErr (buildPoly iv b0 p) = true
      ↔ iv (Geom.single p) = false ∧ iv (b0 p) = false)
    ∧ (∀ ps, iv (Geom.single p) = false → iv (b0 p) = true →
        b0 p = Geom.multi ps → buildPoly iv b0 p = .ok (largestPoly ps)) := by
  constructor
  · by_cases h1 : iv (Geom.single p)
    · simp [buildPoly, h1, isErr]
    · simp only [Bool.not_eq_true] at h1
      by_cases h2 : iv (b0 p)
      · cases hg : b0 p with
        | single q =>
          rw [hg] at h2
          simp [buildPoly, h1, hg, h2, isErr]
        | multi ps =>
          rw [hg] at h2
          simp [buildPoly, h1, hg, h2, isErr]
      · simp only [Bool.not_eq_true] at h2
        simp [buildPoly, h1, h2, isErr]
  · intro ps h1 h2 h3
    rw [h3] at h2
    simp [buildPoly, h1, h3, h2]

/-- C6 (witness).  Concrete instance: the bowtie `poly6` is declared
invalid, buffering yields the valid two-part result `[poly6a, poly6b]`
(doubled areas 2 and 8), and the build emits the larger part `poly6b`. -/
theorem geometry_repair_policy_witness :
    buildPoly iv6 b06 poly6 = .ok poly6b := by
  have h := (geometry_repair_policy iv6 b06 poly6).2 [poly6a, poly6b]
    (by decide) (by decide) rfl
  rw [h]
  exact congrArg Except.ok (by decide)

/-- C7.  `iterplanes` on a 2-d array yields exactly the single pair
`((0, 0), plane)`, but on a 3-d array it does **not** yield one pair per
trailing-dimension slice: the rank test `array.shape == 3` compares a tuple
with an int and is always false, so the 3-d array is never expanded and the
yield indexes it with four indices, raising an `IndexError` on the 2×2×2
example. -/
theorem iterplanes_3d_bug :
    (∀ a : Plane, iterplanes (NArr.d2 a) = .ok [((0, 0), a)])
    ∧ iterplanes (NArr.d3 cube222) = .error "IndexError: too many indices for array" := by
  exact ⟨fun a => rfl, by decide⟩

/-- C8 (counterexample).  Polygon coordinates beyond the requested bounds
are *not* clipped: rasterizing a square reaching to coordinate 6 on a 5×5
target raises an `IndexError` (the scan window of `skimage.draw.polygon` is
not clamped above, and numpy rejects the out-of-range write). -/
theorem oob_not_clipped_cex :
    from_polygons2D [((0, 0, 1), bigSq)] 0 0 ⟨5, 5, 1, 1⟩
      = .error "IndexError: index out of bounds" := by
  decide

/-- C8 (amended).  Only coordinates *below zero* are dropped (the scan
window is clamped at 0): a square reaching into negative x rasterizes
without error onto the requested 5×5 plane with the negative part absent,
while a square reaching beyond the upper bounds raises an `IndexError`
instead of being clipped. -/
theorem oob_clip_low_error_high :
    from_polygons2D [((0, 0, 1), negSq)] 0 0 ⟨5, 5, 1, 1⟩ = .ok negFill5
    ∧ from_polygons2D [((0, 0, 1), bigSq)] 0 0 ⟨5, 5, 1, 1⟩
      = .error "IndexError: index out of bounds" := by
  refine ⟨by decide, by decide⟩

/-- C9 (counterexample).  The emitted point is *not* the arithmetic mean
position: for the plane with label 1 at pixels `(0,0)` and `(0,1)` and zero
offsets, the exact mean x-position is 1/2 but the code emits
`int(np.mean(x)) = 0`. -/
theorem point_centroid_cex :
    to_points2D 0 0 planeC9 = [((0, 0, 1), (0, 0))]
    ∧ npWhereXs planeC9 1 = [0, 1]
    ∧ meanQ [0, 1] = 1 / 2
    ∧ ((0 : ℚ) ≠ 1 / 2) := by
  refine ⟨by decide, by decide, ?_, by norm_num⟩
  norm_num [meanQ]

/-- C9 (amended).  For every label present in a 2-d plane, `to_points`
yields exactly one point for that label, and its coordinates are the
*truncated* integer means of the label's pixel positions, transformed as
`(int(mean_x) + x_offset, -(int(mean_y) + y_offset))`. -/
theorem point_truncated_centroid (yOff xOff : ℤ) (p : Plane) (lab : ℤ)
    (hmem : lab ∈ labels p) :
    ((to_points2D yOff xOff p).filter (fun e => e.1.2.2 == lab)).length = 1
    ∧ ((0, 0, lab),
        (meanInt (npWhereXs p lab) + xOff,
         -(meanInt (npWhereYs p lab) + yOff))) ∈ to_points2D yOff xOff p := by
  constructor
  · exact filter_map_key_len
      (fun lab0 => ((0, 0, lab0),
        (meanInt (npWhereXs p lab0) + xOff, -(meanInt (npWhereYs p lab0) + yOff))))
      (fun e => e.1.2.2) (fun x => rfl) lab (labels p) (labels_nodup p) hmem
  · exact List.mem_map_of_mem _ hmem

/-- C9 (witness).  The amended statement instantiated at `planeC9`,
label 1, offsets `(3, 7)`. -/
theorem point_truncated_centroid_witness :
    ((to_points2D 3 7 planeC9).filter (fun e => e.1.2.2 == 1)).length = 1
    ∧ ((0, 0, 1),
        (meanInt (npWhereXs planeC9 1) + 7,
         -(meanInt (npWhereYs planeC9 1) + 3))) ∈ to_points2D 3 7 planeC9 := by
  exact point_truncated_centroid 3 7 planeC9 1 (by decide)

/-- C10.  At most one hole ring survives the contour-collection loop of
`to_polygons`: for any `RETR_CCOMP`-shaped contour set with one exterior
contour (child pointing at its first hole) and at least two hole contours
(each parented by the exterior), the loop collects exactly the exterior's
first child as a hole — the sibling holes are dropped silently, so the
resulting polygon has exactly one (hence at most one) hole ring. -/
theorem at_most_one_hole (contours : List Ctr) (hier : Hier) (e holeIdx : ℕ)
    (_hlen : 3 ≤ contours.length) (he : e < contours.length)
    (hhe : hier.getD e (0, 0) = ((holeIdx : ℤ), -1))
    (hothers : ∀ i, i < contours.length → i ≠ e →
      hier.getD i (0, 0) = (-1, (e : ℤ))) :
    (contourLoopRun contours hier).2 = [contours.getD holeIdx []]
    ∧ (contourLoopRun contours hier).2.length ≤ 1 := by
  have h := contourLoopGo_holes contours hier e holeIdx hhe hothers
    (List.range contours.length) (fun i hi => List.mem_range.1 hi)
    (List.nodup_range _) none []
  have he' : e ∈ List.range contours.length := List.mem_range.2 he
  rw [if_pos he'] at h
  have h2 : (contourLoopRun contours hier).2 = [contours.getD holeIdx []] := by
    simpa [contourLoopRun] using h
  exact ⟨h2, by rw [h2]; simp⟩

/-- C10 (witness).  Concrete instance: exterior contour at index 0 with
child 1, two hole contours at indices 1 and 2 parented by 0; the collected
hole list is exactly the first child. -/
theorem at_most_one_hole_witness :
    (contourLoopRun [[(0,0),(0,9),(9,9),(9,0)], [(1,1),(1,2),(2,2)], [(5,5),(5,6),(6,6)]]
        [(1, -1), (-1, 0), (-1, 0)]).2 = [[(1,1),(1,2),(2,2)]]
    ∧ (contourLoopRun [[(0,0),(0,9),(9,9),(9,0)], [(1,1),(1,2),(2,2)], [(5,5),(5,6),(6,6)]]
        [(1, -1), (-1, 0), (-1, 0)]).2.length ≤ 1 := by
  exact at_most_one_hole
    [[(0,0),(0,9),(9,9),(9,0)], [(1,1),(1,2),(2,2)], [(5,5),(5,6),(6,6)]]
    [(1, -1), (-1, 0), (-1, 0)] 0 1 (by decide) (by decide) (by decide)
    (by decide)

end TMaps
